import Mathlib

/-!
Verification of the fluent API request builder, schema validator and custom
matchers of the playwright-api test suite, shallowly embedded in Lean.
-/

/-- Model of a JavaScript/JSON value as it appears in this test suite:
`null`, booleans, (integer) numbers, strings, arrays and plain objects.
`undefined` and non-integer numbers do not occur in the code under study. -/
inductive JSValue where
  | null
  | bool (b : Bool)
  | num (n : Int)
  | str (s : String)
  | arr (items : List JSValue)
  | obj (fields : List (String × JSValue))

/-- Escapes a string for inclusion in a JSON document, as `JSON.stringify`
does for the quote and backslash characters (control-character escapes are
not modelled; they do not occur in the values under study). -/
def jsEscape (s : String) : String :=
  s.toList.foldl
    (fun acc c =>
      acc ++ (if c = '"' then "\\\"" else if c = '\\' then "\\\\" else String.singleton c))
    ""

mutual

/-- Model of `JSON.stringify` on the values of this suite (no `undefined`,
no functions, integers only, insertion-ordered object keys). -/
def jsStringify : JSValue → String
  | .null => "null"
  | .bool b => cond b "true" "false"
  | .num n => toString n
  | .str s => "\"" ++ jsEscape s ++ "\""
  | .arr items => "[" ++ jsStringifyArr items ++ "]"
  | .obj fields => "\x7b" ++ jsStringifyObj fields ++ "\x7d"

/-- Comma-separated serialization of the elements of a JSON array. -/
def jsStringifyArr : List JSValue → String
  | [] => ""
  | [v] => jsStringify v
  | v :: rest => jsStringify v ++ "," ++ jsStringifyArr rest

/-- Comma-separated serialization of the fields of a JSON object. -/
def jsStringifyObj : List (String × JSValue) → String
  | [] => ""
  | [(k, v)] => "\"" ++ jsEscape k ++ "\":" ++ jsStringify v
  | (k, v) :: rest =>
      "\"" ++ jsEscape k ++ "\":" ++ jsStringify v ++ "," ++ jsStringifyObj rest

end

mutual

/-- Model of the JavaScript `String(x)` coercion on the modelled values:
strings stay themselves, numbers and booleans print, `null` prints as
"null", arrays join their elements with commas (`Array.prototype.toString`,
where a `null` element prints as the empty string) and plain objects print
as "[object Object]". -/
def jsToString : JSValue → String
  | .null => "null"
  | .bool b => cond b "true" "false"
  | .num n => toString n
  | .str s => s
  | .arr items => jsJoinArr items
  | .obj _ => "[object Object]"

/-- Comma-separated join used by `Array.prototype.toString`. -/
def jsJoinArr : List JSValue → String
  | [] => ""
  | [.null] => ""
  | [v] => jsToString v
  | .null :: rest => "," ++ jsJoinArr rest
  | v :: rest => jsToString v ++ "," ++ jsJoinArr rest

end

/-- Model of the JavaScript strict-equality operator `===` on the modelled
values: equality on the primitives (`null`, booleans, numbers, strings) and
`false` on arrays and objects, which in the source denote distinct object
literals (reference inequality).  Wherever the source uses `===` it does so
in disjunction with a `JSON.stringify` comparison, which subsumes the
same-reference `true` case, so this under-approximation never changes the
value of a modelled matcher. -/
def jsStrictEq : JSValue → JSValue → Bool
  | .null, .null => true
  | .bool a, .bool b => a == b
  | .num a, .num b => a == b
  | .str a, .str b => a == b
  | _, _ => false

/-- Model of `String.prototype.includes`: substring containment, decided via
list-infix containment on the character lists. -/
def strIncludes (hay needle : String) : Bool :=
  decide (needle.toList <:+: hay.toList)

/-- The matcher `shouldEqual` of `src/utils/customMatchers.ts` (the version
in part_005 is textually identical): `received === expected ||
JSON.stringify(received) === JSON.stringify(expected)`. -/
def shouldEqual (received expected : JSValue) : Bool :=
  jsStrictEq received expected || jsStringify received == jsStringify expected

/-- The matcher `shouldContain` of `src/utils/customMatchers.ts`.  The source
dispatches on `typeof received`: strings use `received.includes(expected)`
(with `expected` coerced to a string), arrays use
`received.includes(expected) || received.some(item => JSON.stringify(item)
=== JSON.stringify(expected))`, and any other value of `typeof === 'object'`
(plain objects and `null`) uses
`JSON.stringify(received).includes(expected)`; numbers and booleans fall
through with `pass = false`. -/
def shouldContain (received expected : JSValue) : Bool :=
  match received with
  | .str s => strIncludes s (jsToString expected)
  | .arr items =>
      items.any (fun item => jsStrictEq item expected)
        || items.any (fun item => jsStringify item == jsStringify expected)
  | .obj fields => strIncludes (jsStringify (.obj fields)) (jsToString expected)
  | .null => strIncludes (jsStringify .null) (jsToString expected)
  | _ => false

/-- The matcher `shouldContain` of the second matcher file (part_005): its
string branch additionally requires `expected` to be a string
(`typeof received === 'string' && typeof expected === 'string'`), its object
branch excludes `null` (`received !== null`) and coerces `expected` with an
explicit `String(expected)`; the array branch is the same as in
`customMatchers.ts`. -/
def shouldContainV2 (received expected : JSValue) : Bool :=
  match received with
  | .str s =>
      match expected with
      | .str e => strIncludes s e
      | _ => false
  | .arr items =>
      items.any (fun item => jsStrictEq item expected)
        || items.any (fun item => jsStringify item == jsStringify expected)
  | .obj fields => strIncludes (jsStringify (.obj fields)) (jsToString expected)
  | _ => false

/-- The ECMAScript character class `\s`, as matched by a JavaScript regex:
tab, line feed, vertical tab, form feed, carriage return, space, no-break
space, U+1680, the U+2000–U+200A spaces, the U+2028/U+2029 line and
paragraph separators, U+202F, U+205F, U+3000, and the U+FEFF byte-order
mark. -/
def isJsWhitespace (c : Char) : Bool :=
  let n := c.toNat
  n == 0x9 || n == 0xA || n == 0xB || n == 0xC || n == 0xD || n == 0x20 ||
  n == 0xA0 || n == 0x1680 ||
  (decide (0x2000 ≤ n) && decide (n ≤ 0x200A)) ||
  n == 0x2028 || n == 0x2029 || n == 0x202F || n == 0x205F ||
  n == 0x3000 || n == 0xFEFF

/-- The character class `[^\s@]` of the email regex: any character that is
neither ECMAScript whitespace nor `@`. -/
def isEmailChar (c : Char) : Bool :=
  !isJsWhitespace c && c != '@'

/-- Matches the regex fragment `[^\s@]+` followed by a continuation: some
nonempty prefix of email characters is consumed and the continuation must
accept the remainder (backtracking over all prefix lengths, which for a
boolean verdict is equivalent to the greedy semantics of the source regex). -/
def plusThen (k : List Char → Bool) : List Char → Bool
  | [] => false
  | c :: rest => isEmailChar c && (k rest || plusThen k rest)

/-- The regex step `\.[^\s@]+$`: the next character must be a literal dot,
followed by a final nonempty run of email characters reaching the end of
the string. -/
def emailDotK (r3 : List Char) : Bool :=
  match r3 with
  | [] => false
  | c :: r4 => c == '.' && plusThen (fun r5 => r5.isEmpty) r4

/-- The regex step `@[^\s@]+` followed by `emailDotK`: the next character
must be the `@`, followed by a nonempty run of email characters and then
the dot step. -/
def emailAtK (r1 : List Char) : Bool :=
  match r1 with
  | [] => false
  | c :: r2 => c == '@' && plusThen emailDotK r2

/-- A hand compilation of the email regex
`/^[^\s@]+@[^\s@]+\.[^\s@]+$/` used by `shouldBeValidEmail` (and by the
custom `email` format of the class-based `SchemaValidator`): a nonempty run
of email characters, an `@`, a nonempty run, a `.`, a final nonempty run,
end of string. -/
def emailRegexTest (s : String) : Bool :=
  plusThen emailAtK s.toList

/-- The matcher `shouldBeValidEmail` of `src/utils/customMatchers.ts`
(identical in part_005): `typeof received === 'string' &&
emailRegex.test(received)`. -/
def shouldBeValidEmail (received : JSValue) : Bool :=
  match received with
  | .str s => emailRegexTest s
  | _ => false


/-- A JavaScript string-keyed record of strings (`Record<string, string>`),
modelled as an association list in property-insertion order; JS object keys
are unique, which the merge operation below preserves. -/
abbrev HeaderMap := List (String × String)

/-- A JavaScript record of query-parameter values (`Record<string, any>`). -/
abbrev ParamMap := List (String × JSValue)

/-- Assignment of one property in a JS object: if the key is already
present its value is updated in place (keeping the original property
position), otherwise the property is appended.  The object-spread expression
`\x7b...h, ...g\x7d` of the source performs exactly this for each property of
`g` in order. -/
def recordSet (m : HeaderMap) (key val : String) : HeaderMap :=
  match m with
  | [] => [(key, val)]
  | (k, v) :: rest =>
      if k = key then (key, val) :: rest else (k, v) :: recordSet rest key val

/-- Model of the JS object-spread merge `\x7b...h, ...g\x7d`: start from `h`
and assign every property of `g` in order (values of `g` win on shared
keys, properties of `h` keep their position and value otherwise). -/
def objSpread (h g : HeaderMap) : HeaderMap :=
  g.foldl (fun acc p => recordSet acc p.1 p.2) h

/-- Removal of a property from a JS object, as performed both by the rest
pattern `const \x7b Authorization, ...rest \x7d = headers` and by
`delete headers['Authorization']`. -/
def eraseKey (key : String) (m : HeaderMap) : HeaderMap :=
  m.filter (fun p => p.1 != key)

/-- The private mutable state of one `ApiBuilder` instance
(`src/unnamed/part_006`; the `request : APIRequestContext` collaborator is
passed separately to the verb methods as the `send` function). -/
structure ApiBuilder where
  endpoint : String := ""
  requestParams : Option ParamMap := none
  requestHeaders : Option HeaderMap := none
  requestBody : Option JSValue := none

/-- `ApiBuilder.getDefaultHeaders`: content negotiation plus the bearer
token taken from process configuration (`process.env.GO_REST_API_TOKEN` in
the first version, a hard-coded literal in the second); the token is the
`token` parameter of the model. -/
def getDefaultHeaders (token : String) : HeaderMap :=
  [("Accept", "application/json"),
   ("Content-Type", "application/json"),
   ("Authorization", "Bearer " ++ token)]

/-- The `ApiBuilder` constructor: empty endpoint, no params, no body, and
the default headers. -/
def ApiBuilder.create (token : String) : ApiBuilder :=
  { requestHeaders := some (getDefaultHeaders token) }

/-- `ApiBuilder.path`: prefixes the fixed base URL. -/
def ApiBuilder.path (endpoint : String) (st : ApiBuilder) : ApiBuilder :=
  { st with endpoint := "https://gorest.co.in/public/v2" ++ endpoint }

/-- `ApiBuilder.params`: replaces the query-parameter map. -/
def ApiBuilder.params (p : ParamMap) (st : ApiBuilder) : ApiBuilder :=
  { st with requestParams := some p }

/-- `ApiBuilder.body`: replaces the pending request body. -/
def ApiBuilder.body (data : JSValue) (st : ApiBuilder) : ApiBuilder :=
  { st with requestBody := some data }

/-- `ApiBuilder.headers`: `this.requestHeaders = \x7b ...this.requestHeaders,
...headers \x7d` — merges the given headers into the current map, the given
ones winning (spread of an `undefined` map contributes nothing). -/
def ApiBuilder.headers (g : HeaderMap) (st : ApiBuilder) : ApiBuilder :=
  { st with requestHeaders := some (objSpread (st.requestHeaders.getD []) g) }

/-- `ApiBuilder.withoutAuth`, first version: `const \x7b Authorization,
...rest \x7d = this.requestHeaders || \x7b\x7d; this.requestHeaders = rest`. -/
def ApiBuilder.withoutAuth (st : ApiBuilder) : ApiBuilder :=
  { st with requestHeaders := some (eraseKey "Authorization" (st.requestHeaders.getD [])) }

/-- `ApiBuilder.withoutAuth`, second version: `if (this.requestHeaders)
\x7b delete this.requestHeaders['Authorization'] \x7d`. -/
def ApiBuilder.withoutAuthV2 (st : ApiBuilder) : ApiBuilder :=
  match st.requestHeaders with
  | none => st
  | some m => { st with requestHeaders := some (eraseKey "Authorization" m) }

/-- `ApiBuilder.reset`: clears endpoint, params and body and restores the
default headers. -/
def ApiBuilder.reset (token : String) (st : ApiBuilder) : ApiBuilder :=
  { st with
    endpoint := ""
    requestParams := none
    requestBody := none
    requestHeaders := some (getDefaultHeaders token) }

/-- HTTP method of a dispatched request. -/
inductive HttpMethod where
  | GET | POST | PUT | PATCH | DELETE
deriving DecidableEq

/-- The request actually handed to the HTTP client: the URL plus the options
object passed to `this.request.get/post/put/patch/delete`.  A field that the
options object omits is `none`: such a field is not transmitted. -/
structure HttpRequest where
  method : HttpMethod
  url : String
  params : Option ParamMap := none
  headers : Option HeaderMap := none
  data : Option JSValue := none

/-- The observable part of an `APIResponse`: its status code and the result
of `response.json()` (`none` models a body that fails to parse as JSON). -/
structure HttpResponse where
  status : Nat
  jsonBody : Option JSValue := none

/-- The options record `\x7b params, headers \x7d` passed to
`this.request.get` — a GET transmits the query parameters and headers but
carries no `data` field. -/
def buildGet (st : ApiBuilder) : HttpRequest :=
  { method := .GET, url := st.endpoint
    params := st.requestParams, headers := st.requestHeaders }

/-- The options record `\x7b data, headers \x7d` passed to
`this.request.post` — no `params` field. -/
def buildPost (st : ApiBuilder) : HttpRequest :=
  { method := .POST, url := st.endpoint
    data := st.requestBody, headers := st.requestHeaders }

/-- The options record passed to `this.request.put`. -/
def buildPut (st : ApiBuilder) : HttpRequest :=
  { method := .PUT, url := st.endpoint
    data := st.requestBody, headers := st.requestHeaders }

/-- The options record passed to `this.request.patch`. -/
def buildPatch (st : ApiBuilder) : HttpRequest :=
  { method := .PATCH, url := st.endpoint
    data := st.requestBody, headers := st.requestHeaders }

/-- The options record `\x7b headers \x7d` passed to `this.request.delete` —
neither `params` nor `data`. -/
def buildDelete (st : ApiBuilder) : HttpRequest :=
  { method := .DELETE, url := st.endpoint, headers := st.requestHeaders }

/-- The status assertion shared by every verb method:
`expect(response.status(), msg).toBe(expectedStatus)` — on mismatch the test
fails immediately with the message naming both values, modelled as an
`Except.error`; on match the response is returned. -/
def checkStatus (expectedStatus : Nat) (response : HttpResponse) :
    Except String HttpResponse :=
  if response.status = expectedStatus then .ok response
  else
    .error ("Expected status " ++ toString expectedStatus ++ ", got "
      ++ toString response.status)

/-- `ApiBuilder.getRequest`: dispatch the GET options then assert the
status. -/
def ApiBuilder.getRequest (st : ApiBuilder) (send : HttpRequest → HttpResponse)
    (expectedStatus : Nat) : Except String HttpResponse :=
  checkStatus expectedStatus (send (buildGet st))

/-- `ApiBuilder.getRequestJson`: `getRequest` then `response.json()`. -/
def ApiBuilder.getRequestJson (st : ApiBuilder) (send : HttpRequest → HttpResponse)
    (expectedStatus : Nat) : Except String JSValue :=
  (ApiBuilder.getRequest st send expectedStatus).bind fun response =>
    match response.jsonBody with
    | some j => .ok j
    | none => .error "JSON parse failure"

/-- `ApiBuilder.postRequest`. -/
def ApiBuilder.postRequest (st : ApiBuilder) (send : HttpRequest → HttpResponse)
    (expectedStatus : Nat) : Except String HttpResponse :=
  checkStatus expectedStatus (send (buildPost st))

/-- `ApiBuilder.postRequestJson`. -/
def ApiBuilder.postRequestJson (st : ApiBuilder) (send : HttpRequest → HttpResponse)
    (expectedStatus : Nat) : Except String JSValue :=
  (ApiBuilder.postRequest st send expectedStatus).bind fun response =>
    match response.jsonBody with
    | some j => .ok j
    | none => .error "JSON parse failure"

/-- `ApiBuilder.putRequest`. -/
def ApiBuilder.putRequest (st : ApiBuilder) (send : HttpRequest → HttpResponse)
    (expectedStatus : Nat) : Except String HttpResponse :=
  checkStatus expectedStatus (send (buildPut st))

/-- `ApiBuilder.putRequestJson`. -/
def ApiBuilder.putRequestJson (st : ApiBuilder) (send : HttpRequest → HttpResponse)
    (expectedStatus : Nat) : Except String JSValue :=
  (ApiBuilder.putRequest st send expectedStatus).bind fun response =>
    match response.jsonBody with
    | some j => .ok j
    | none => .error "JSON parse failure"

/-- `ApiBuilder.patchRequest`. -/
def ApiBuilder.patchRequest (st : ApiBuilder) (send : HttpRequest → HttpResponse)
    (expectedStatus : Nat) : Except String HttpResponse :=
  checkStatus expectedStatus (send (buildPatch st))

/-- `ApiBuilder.patchRequestJson`. -/
def ApiBuilder.patchRequestJson (st : ApiBuilder) (send : HttpRequest → HttpResponse)
    (expectedStatus : Nat) : Except String JSValue :=
  (ApiBuilder.patchRequest st send expectedStatus).bind fun response =>
    match response.jsonBody with
    | some j => .ok j
    | none => .error "JSON parse failure"

/-- `ApiBuilder.deleteRequest` (it has no `Json` counterpart in the
source). -/
def ApiBuilder.deleteRequest (st : ApiBuilder) (send : HttpRequest → HttpResponse)
    (expectedStatus : Nat) : Except String HttpResponse :=
  checkStatus expectedStatus (send (buildDelete st))

/-- One entry of ajv's `validate.errors` array: the instance path of the
offending value and the human-readable message for the violated rule (the
other ajv fields are not consumed by the repository). -/
structure AjvError where
  instancePath : String
  message : String
deriving DecidableEq

/-- A primitive JSON-Schema node as used by the repository's schema files:
`\x7btype:'string'\x7d` with an optional `format`, `\x7btype:'number'\x7d`,
`\x7btype:'boolean'\x7d`, or a string enumeration. -/
inductive PrimSchema where
  | pString (format : Option String)
  | pNumber
  | pBoolean
  | pStringEnum (values : List String)
deriving DecidableEq

/-- A non-array JSON-Schema node: a primitive, or an object schema with
properties, required keys and an `additionalProperties` flag — the shapes
occurring in `src/schemas` and required by the specification. -/
inductive FlatSchema where
  | prim (p : PrimSchema)
  | objS (props : List (String × PrimSchema)) (required : List String) (addProps : Bool)
deriving DecidableEq

/-- A JSON-Schema document of the repository: a flat node or an array of
flat nodes. -/
inductive JsonSchema where
  | flat (f : FlatSchema)
  | arrOf (items : FlatSchema)
deriving DecidableEq

/-- Modelled from the spec: the ajv validation engine (an external library,
configured with `allErrors: true`) restricted to the schema features the
specification requires — type checks for object/array/string/number/boolean,
enumerated string values, required-field presence, the
`additionalProperties: false` closed-object check, and the regex-based
`email` format check.  This function validates one primitive node and
returns all its violations. -/
def validatePrim (path : String) (p : PrimSchema) (v : JSValue) : List AjvError :=
  match p, v with
  | .pString fmt, .str s =>
      match fmt with
      | some "email" =>
          if emailRegexTest s then []
          else [⟨path, "must match format \"email\""⟩]
      | _ => []
  | .pString _, _ => [⟨path, "must be string"⟩]
  | .pNumber, .num _ => []
  | .pNumber, _ => [⟨path, "must be number"⟩]
  | .pBoolean, .bool _ => []
  | .pBoolean, _ => [⟨path, "must be boolean"⟩]
  | .pStringEnum vals, .str s =>
      if vals.contains s then []
      else [⟨path, "must be equal to one of the allowed values"⟩]
  | .pStringEnum _, _ => [⟨path, "must be string"⟩]

/-- Lookup of a field in a JSON object by key. -/
def lookupField (key : String) (fields : List (String × JSValue)) : Option JSValue :=
  fields.lookup key

/-- Modelled from the spec: one `required` violation per missing required
field, each message naming the field. -/
def requiredErrors (path : String) (required : List String)
    (fields : List (String × JSValue)) : List AjvError :=
  (required.filter (fun r => !(fields.any (fun f => f.1 == r)))).map
    (fun r => ⟨path, "must have required property " ++ r⟩)

/-- Modelled from the spec: with `additionalProperties: false`, one
violation per field not declared among the schema's properties. -/
def additionalErrors (path : String) (addProps : Bool) (propKeys : List String)
    (fields : List (String × JSValue)) : List AjvError :=
  if addProps then []
  else
    (fields.filter (fun f => !(propKeys.contains f.1))).map
      (fun _ => ⟨path, "must NOT have additional properties"⟩)

/-- Modelled from the spec: validation of each declared property that is
present, at instance path `path ++ "/" ++ key` (absent non-required
properties produce no violation). -/
def propErrors (path : String) (props : List (String × PrimSchema))
    (fields : List (String × JSValue)) : List AjvError :=
  match props with
  | [] => []
  | (k, sub) :: rest =>
      (match lookupField k fields with
       | some v => validatePrim (path ++ "/" ++ k) sub v
       | none => []) ++ propErrors path rest fields

/-- Modelled from the spec: validation of one flat schema node, aggregating
every violation in one pass. -/
def validateFlat (path : String) (f : FlatSchema) (v : JSValue) : List AjvError :=
  match f with
  | .prim p => validatePrim path p v
  | .objS props required addProps =>
      match v with
      | .obj fields =>
          requiredErrors path required fields
            ++ additionalErrors path addProps (props.map Prod.fst) fields
            ++ propErrors path props fields
      | _ => [⟨path, "must be object"⟩]

/-- Modelled from the spec: validation of each array element at instance
path `path ++ "/" ++ index`. -/
def itemErrors (path : String) (itemSchema : FlatSchema) :
    List JSValue → Nat → List AjvError
  | [], _ => []
  | v :: rest, idx =>
      validateFlat (path ++ "/" ++ toString idx) itemSchema v
        ++ itemErrors path itemSchema rest (idx + 1)

/-- Modelled from the spec: the ajv `validate` function for a whole schema
document, producing the full `validate.errors` list (empty exactly when the
data conforms). -/
def ajvValidate (path : String) (schema : JsonSchema) (v : JSValue) : List AjvError :=
  match schema with
  | .flat f => validateFlat path f v
  | .arrOf itemSchema =>
      match v with
      | .arr items => itemErrors path itemSchema items 0
      | _ => [⟨path, "must be array"⟩]

/-- The `ValidationResult` returned by the class-based
`SchemaValidator.validate` of `src/utils/schemaValidator.ts`. -/
structure ValidationResult where
  valid : Bool
  errors : List String
deriving DecidableEq

/-- The class-based `SchemaValidator.validate(schema, data)` of
`src/utils/schemaValidator.ts`: run ajv, and on failure map each ajv error
to the message `` `$\x7berror.instancePath\x7d $\x7berror.message\x7d` ``;
on success return `\x7b valid: true, errors: [] \x7d`. -/
def SchemaValidator.validate (schema : JsonSchema) (data : JSValue) : ValidationResult :=
  let errs := ajvValidate "" schema data
  if errs.isEmpty then { valid := true, errors := [] }
  else
    { valid := false
      errors := errs.map (fun e => e.instancePath ++ " " ++ e.message) }

/-- The result record of the registry-based validator (first version in
`src/utils/schemaValidator.ts`): its `errors` field is
`string | null` — `null` on success and a single `JSON.stringify`-ed string
on failure, not a list of per-violation messages. -/
structure RegistryValidationResult where
  valid : Bool
  errors : Option String
deriving DecidableEq

/-- The schema directory name interpolated into the schema-not-found
message (`path.resolve("schemas")` in the source; the resolved absolute
prefix is irrelevant to every claim). -/
def SCHEMA_BASE_PATH : String := "schemas"

/-- Model of `JSON.stringify(validate.errors, null, 2)`: one string holding
a JSON rendering of the whole error array (the pretty-printing whitespace is
not modelled). -/
def jsonStringifyErrors (errs : List AjvError) : String :=
  "[" ++ String.intercalate ","
    (errs.map (fun e =>
      "\x7b\"instancePath\":\"" ++ e.instancePath ++ "\",\"message\":\""
        ++ e.message ++ "\"\x7d")) ++ "]"

/-- The registry-based `SchemaValidator.validate(schemaName, data)`: look
the name up in the memoized registry (`this.ajv.getSchema(schemaName)`,
populated once from the schema directory — the registry contents are the
`registry` parameter); if absent, throw
`` `Schema "$\x7bschemaName\x7d" not found in $\x7bSCHEMA_BASE_PATH\x7d` ``;
otherwise validate and return `\x7b valid: !!valid, errors: valid ? null :
JSON.stringify(validate.errors, null, 2) \x7d`. -/
def registryValidate (registry : List (String × JsonSchema)) (schemaName : String)
    (data : JSValue) : Except String RegistryValidationResult :=
  match registry.lookup schemaName with
  | none =>
      .error ("Schema \"" ++ schemaName ++ "\" not found in " ++ SCHEMA_BASE_PATH)
  | some schema =>
      let errs := ajvValidate "" schema data
      .ok { valid := errs.isEmpty
            errors := if errs.isEmpty then none else some (jsonStringifyErrors errs) }

/-- The `userSchema` of `src/schemas/user.schema.ts`. -/
def userSchema : JsonSchema :=
  .flat (.objS
    [("id", .pNumber), ("name", .pString none), ("email", .pString (some "email")),
     ("gender", .pStringEnum ["male", "female"]),
     ("status", .pStringEnum ["active", "inactive"])]
    ["id", "name", "email", "gender", "status"]
    false)


theorem checkStatus_ok (e : Nat) (r : HttpResponse) (h : r.status = e) :
    checkStatus e r = .ok r := by
  simp [checkStatus, h]

theorem checkStatus_mismatch (e : Nat) (r : HttpResponse) (h : r.status ≠ e) :
    checkStatus e r =
      .error ("Expected status " ++ toString e ++ ", got " ++ toString r.status) := by
  simp [checkStatus, h]

/-- C1: for every builder state (any path, params, body and header map,
including after `withoutAuth()` or `headers()` overrides), `reset()` leaves
an empty path, no query parameters, no body, and a header map equal to
exactly the default set — Accept, Content-Type, and the bearer Authorization
header; in particular a GET issued after `withoutAuth()` (either version)
followed by `reset()` carries the Authorization header. -/
theorem reset_restores_default_state (token : String) (st : ApiBuilder) :
    ApiBuilder.reset token st =
      { endpoint := "", requestParams := none, requestBody := none,
        requestHeaders := some (getDefaultHeaders token) } ∧
    getDefaultHeaders token =
      [("Accept", "application/json"), ("Content-Type", "application/json"),
       ("Authorization", "Bearer " ++ token)] ∧
    (buildGet (ApiBuilder.reset token (ApiBuilder.withoutAuth st))).headers =
      some (getDefaultHeaders token) ∧
    ((buildGet (ApiBuilder.reset token (ApiBuilder.withoutAuth st))).headers.getD
        []).lookup "Authorization" = some ("Bearer " ++ token) ∧
    ((buildGet (ApiBuilder.reset token (ApiBuilder.withoutAuthV2 st))).headers.getD
        []).lookup "Authorization" = some ("Bearer " ++ token) := by
  refine ⟨rfl, rfl, rfl, rfl, ?_⟩
  cases h : st.requestHeaders <;>
    simp [ApiBuilder.withoutAuthV2, ApiBuilder.reset, buildGet, h,
      getDefaultHeaders, List.lookup]

/-- C10: a GET transmits the query parameters and headers but never the
configured body; POST, PUT and PATCH transmit the body and headers but never
the query parameters; DELETE transmits only the headers (neither body nor
query parameters) — the verb methods dispatch exactly these option records
to the HTTP client. -/
theorem verb_payload_selection (st : ApiBuilder) :
    (buildGet st).params = st.requestParams ∧
    (buildGet st).headers = st.requestHeaders ∧
    (buildGet st).data = none ∧
    (buildPost st).data = st.requestBody ∧
    (buildPost st).headers = st.requestHeaders ∧
    (buildPost st).params = none ∧
    (buildPut st).data = st.requestBody ∧
    (buildPut st).headers = st.requestHeaders ∧
    (buildPut st).params = none ∧
    (buildPatch st).data = st.requestBody ∧
    (buildPatch st).headers = st.requestHeaders ∧
    (buildPatch st).params = none ∧
    (buildDelete st).headers = st.requestHeaders ∧
    (buildDelete st).params = none ∧
    (buildDelete st).data = none :=
  ⟨rfl, rfl, rfl, rfl, rfl, rfl, rfl, rfl, rfl, rfl, rfl, rfl, rfl, rfl, rfl⟩

/-- C2: every verb method returns the response when the actual status equals
the expected one, and otherwise fails immediately with a message naming both
the expected and the actual status; each `...Json` counterpart returns the
JSON-parsed body on a matching status and fails with the same message on a
mismatch. -/
theorem verb_status_assertion (st : ApiBuilder) (send : HttpRequest → HttpResponse)
    (e : Nat) :
    (((send (buildGet st)).status = e →
        ApiBuilder.getRequest st send e = .ok (send (buildGet st))) ∧
      ((send (buildGet st)).status ≠ e →
        ApiBuilder.getRequest st send e =
          .error ("Expected status " ++ toString e ++ ", got "
            ++ toString (send (buildGet st)).status))) ∧
    (((send (buildPost st)).status = e →
        ApiBuilder.postRequest st send e = .ok (send (buildPost st))) ∧
      ((send (buildPost st)).status ≠ e →
        ApiBuilder.postRequest st send e =
          .error ("Expected status " ++ toString e ++ ", got "
            ++ toString (send (buildPost st)).status))) ∧
    (((send (buildPut st)).status = e →
        ApiBuilder.putRequest st send e = .ok (send (buildPut st))) ∧
      ((send (buildPut st)).status ≠ e →
        ApiBuilder.putRequest st send e =
          .error ("Expected status " ++ toString e ++ ", got "
            ++ toString (send (buildPut st)).status))) ∧
    (((send (buildPatch st)).status = e →
        ApiBuilder.patchRequest st send e = .ok (send (buildPatch st))) ∧
      ((send (buildPatch st)).status ≠ e →
        ApiBuilder.patchRequest st send e =
          .error ("Expected status " ++ toString e ++ ", got "
            ++ toString (send (buildPatch st)).status))) ∧
    (((send (buildDelete st)).status = e →
        ApiBuilder.deleteRequest st send e = .ok (send (buildDelete st))) ∧
      ((send (buildDelete st)).status ≠ e →
        ApiBuilder.deleteRequest st send e =
          .error ("Expected status " ++ toString e ++ ", got "
            ++ toString (send (buildDelete st)).status))) ∧
    (((send (buildGet st)).status = e →
        ∀ j, (send (buildGet st)).jsonBody = some j →
          ApiBuilder.getRequestJson st send e = .ok j) ∧
      ((send (buildGet st)).status ≠ e →
        ApiBuilder.getRequestJson st send e =
          .error ("Expected status " ++ toString e ++ ", got "
            ++ toString (send (buildGet st)).status))) ∧
    (((send (buildPost st)).status = e →
        ∀ j, (send (buildPost st)).jsonBody = some j →
          ApiBuilder.postRequestJson st send e = .ok j) ∧
      ((send (buildPost st)).status ≠ e →
        ApiBuilder.postRequestJson st send e =
          .error ("Expected status " ++ toString e ++ ", got "
            ++ toString (send (buildPost st)).status))) ∧
    (((send (buildPut st)).status = e →
        ∀ j, (send (buildPut st)).jsonBody = some j →
          ApiBuilder.putRequestJson st send e = .ok j) ∧
      ((send (buildPut st)).status ≠ e →
        ApiBuilder.putRequestJson st send e =
          .error ("Expected status " ++ toString e ++ ", got "
            ++ toString (send (buildPut st)).status))) ∧
    (((send (buildPatch st)).status = e →
        ∀ j, (send (buildPatch st)).jsonBody = some j →
          ApiBuilder.patchRequestJson st send e = .ok j) ∧
      ((send (buildPatch st)).status ≠ e →
        ApiBuilder.patchRequestJson st send e =
          .error ("Expected status " ++ toString e ++ ", got "
            ++ toString (send (buildPatch st)).status))) := by
  refine ⟨⟨?_, ?_⟩, ⟨?_, ?_⟩, ⟨?_, ?_⟩, ⟨?_, ?_⟩, ⟨?_, ?_⟩,
    ⟨?_, ?_⟩, ⟨?_, ?_⟩, ⟨?_, ?_⟩, ⟨?_, ?_⟩⟩ <;>
    intro h
  case _ => exact checkStatus_ok e _ h
  case _ => exact checkStatus_mismatch e _ h
  case _ => exact checkStatus_ok e _ h
  case _ => exact checkStatus_mismatch e _ h
  case _ => exact checkStatus_ok e _ h
  case _ => exact checkStatus_mismatch e _ h
  case _ => exact checkStatus_ok e _ h
  case _ => exact checkStatus_mismatch e _ h
  case _ => exact checkStatus_ok e _ h
  case _ => exact checkStatus_mismatch e _ h
  case _ =>
    intro j hj
    simp [ApiBuilder.getRequestJson, ApiBuilder.getRequest, Except.bind,
      checkStatus_ok e _ h, hj]
  case _ =>
    simp [ApiBuilder.getRequestJson, ApiBuilder.getRequest, Except.bind,
      checkStatus_mismatch e _ h]
  case _ =>
    intro j hj
    simp [ApiBuilder.postRequestJson, ApiBuilder.postRequest, Except.bind,
      checkStatus_ok e _ h, hj]
  case _ =>
    simp [ApiBuilder.postRequestJson, ApiBuilder.postRequest, Except.bind,
      checkStatus_mismatch e _ h]
  case _ =>
    intro j hj
    simp [ApiBuilder.putRequestJson, ApiBuilder.putRequest, Except.bind,
      checkStatus_ok e _ h, hj]
  case _ =>
    simp [ApiBuilder.putRequestJson, ApiBuilder.putRequest, Except.bind,
      checkStatus_mismatch e _ h]
  case _ =>
    intro j hj
    simp [ApiBuilder.patchRequestJson, ApiBuilder.patchRequest, Except.bind,
      checkStatus_ok e _ h, hj]
  case _ =>
    simp [ApiBuilder.patchRequestJson, ApiBuilder.patchRequest, Except.bind,
      checkStatus_mismatch e _ h]

/-- C2 witness: at a concrete builder, dispatcher and statuses, a matching
expected status returns the response (and the parsed body for the Json
variant) while a mismatching one fails with the message naming both
values. -/
theorem verb_status_assertion_witness :
    ApiBuilder.getRequest (ApiBuilder.create "t")
        (fun _ => { status := 200, jsonBody := some (.num 7) }) 200 =
      .ok { status := 200, jsonBody := some (.num 7) } ∧
    ApiBuilder.getRequest (ApiBuilder.create "t")
        (fun _ => { status := 200, jsonBody := some (.num 7) }) 404 =
      .error "Expected status 404, got 200" ∧
    ApiBuilder.postRequestJson (ApiBuilder.create "t")
        (fun _ => { status := 200, jsonBody := some (.num 7) }) 200 =
      .ok (.num 7) := by
  have h := verb_status_assertion (ApiBuilder.create "t")
    (fun _ => { status := 200, jsonBody := some (.num 7) }) 200
  have h' := verb_status_assertion (ApiBuilder.create "t")
    (fun _ => { status := 200, jsonBody := some (.num 7) }) 404
  exact ⟨h.1.1 rfl, h'.1.2 (by decide), (h.2.2.2.2.2.2.1.1 rfl) (.num 7) rfl⟩

/-- C3: the class-based `validate(schema, data)` returns a record
`\x7b valid, errors \x7d` whose `errors` is the ordered list of one message
per ajv violation, each consisting of the offending instance path and the
violated rule's message; all violations are aggregated in one pass (shown by
a concrete two-violation input), and on conforming data `valid` is `true`
and `errors` is empty. -/
theorem validate_aggregates_errors :
    (∀ (schema : JsonSchema) (data : JSValue),
      ((SchemaValidator.validate schema data).valid = true ↔
        ajvValidate "" schema data = []) ∧
      (SchemaValidator.validate schema data).errors =
        (ajvValidate "" schema data).map (fun e => e.instancePath ++ " " ++ e.message) ∧
      ((SchemaValidator.validate schema data).valid = true ↔
        (SchemaValidator.validate schema data).errors = [])) ∧
    ajvValidate "" userSchema
        (.obj [("id", .str "abc"), ("name", .num 1), ("email", .str "valid@x.com"),
               ("gender", .str "male"), ("status", .str "active")]) =
      [{ instancePath := "/id", message := "must be number" },
       { instancePath := "/name", message := "must be string" }] ∧
    SchemaValidator.validate userSchema
        (.obj [("id", .str "abc"), ("name", .num 1), ("email", .str "valid@x.com"),
               ("gender", .str "male"), ("status", .str "active")]) =
      { valid := false, errors := ["/id must be number", "/name must be string"] } ∧
    SchemaValidator.validate userSchema
        (.obj [("id", .num 1), ("name", .str "n"), ("email", .str "a@b.com"),
               ("gender", .str "male"), ("status", .str "active")]) =
      { valid := true, errors := [] } := by
  refine ⟨fun schema data => ?_, by decide, by decide, by decide⟩
  unfold SchemaValidator.validate
  cases h : ajvValidate "" schema data with
  | nil => simp [h]
  | cons e es => simp [h]

/-- C4: the registry-based `validate(name, data)` throws a schema-not-found
error exactly when `name` is absent from the memoized registry, rather than
treating the data as valid; when `name` is registered, no such error is
raised and a result record is returned. -/
theorem schema_not_found_on_missing_name (registry : List (String × JsonSchema))
    (name : String) (data : JSValue) :
    (registry.lookup name = none →
      registryValidate registry name data =
        .error ("Schema \"" ++ name ++ "\" not found in " ++ SCHEMA_BASE_PATH)) ∧
    (∀ s, registry.lookup name = some s →
      registryValidate registry name data =
        .ok { valid := (ajvValidate "" s data).isEmpty,
              errors :=
                if (ajvValidate "" s data).isEmpty then none
                else some (jsonStringifyErrors (ajvValidate "" s data)) }) := by
  constructor
  · intro h
    simp [registryValidate, h]
  · intro s h
    simp [registryValidate, h]

/-- C4 witness: a concrete one-schema registry — looking up an unregistered
name throws the schema-not-found error, looking up the registered name
returns a validation result. -/
theorem schema_not_found_on_missing_name_witness :
    ([("user.json", userSchema)] : List (String × JsonSchema)).lookup "missing.json" =
      none ∧
    registryValidate [("user.json", userSchema)] "missing.json" .null =
      .error "Schema \"missing.json\" not found in schemas" ∧
    registryValidate [("user.json", userSchema)] "user.json"
        (.obj [("id", .num 1), ("name", .str "n"), ("email", .str "a@b.com"),
               ("gender", .str "male"), ("status", .str "active")]) =
      .ok { valid := true, errors := none } := by
  refine ⟨by decide, ?_, ?_⟩
  · exact (schema_not_found_on_missing_name [("user.json", userSchema)]
      "missing.json" .null).1 (by decide)
  · exact (schema_not_found_on_missing_name [("user.json", userSchema)]
      "user.json" _).2 userSchema (by decide)

theorem lookup_cons_ite (a k v : String) (es : List (String × String)) :
    List.lookup a ((k, v) :: es) = if a = k then some v else List.lookup a es := by
  rw [List.lookup_cons]
  cases h : a == k
  · rw [if_neg]
    simp only [beq_eq_false_iff_ne, ne_eq] at h
    exact h
  · rw [if_pos (eq_of_beq h)]

theorem lookup_recordSet (m : HeaderMap) (key val k : String) :
    (recordSet m key val).lookup k = if k = key then some val else m.lookup k := by
  induction m with
  | nil =>
    rw [show recordSet [] key val = [(key, val)] from rfl, lookup_cons_ite]
  | cons p rest ih =>
    obtain ⟨k0, v0⟩ := p
    by_cases h0 : k0 = key
    · subst h0
      by_cases h : k = k0 <;> simp [recordSet, lookup_cons_ite, h]
    · by_cases h : k = k0
      · subst h
        simp [recordSet, h0, lookup_cons_ite]
      · simp [recordSet, h0, lookup_cons_ite, h, ih]

theorem lookup_eq_none_of_not_mem_keys (k : String) (m : HeaderMap)
    (h : k ∉ m.map Prod.fst) : m.lookup k = none := by
  induction m with
  | nil => rfl
  | cons p rest ih =>
    obtain ⟨k0, v0⟩ := p
    simp only [List.map_cons, List.mem_cons, not_or] at h
    simp [lookup_cons_ite, h.1, ih h.2]

theorem lookup_objSpread (g : HeaderMap) (h : HeaderMap) (k : String)
    (hg : (g.map Prod.fst).Nodup) :
    (objSpread h g).lookup k = (g.lookup k).or (h.lookup k) := by
  induction g generalizing h with
  | nil => simp [objSpread, List.lookup, Option.none_or]
  | cons p rest ih =>
    obtain ⟨k0, v0⟩ := p
    simp only [List.map_cons, List.nodup_cons] at hg
    obtain ⟨hk0, hrest⟩ := hg
    have hfold : objSpread h ((k0, v0) :: rest) = objSpread (recordSet h k0 v0) rest := rfl
    rw [hfold, ih _ hrest, lookup_recordSet, lookup_cons_ite]
    by_cases hk : k = k0
    · subst hk
      have hnone : rest.lookup k = none :=
        lookup_eq_none_of_not_mem_keys k rest hk0
      simp [hnone, Option.or]
    · simp [hk]

/-- C5: `headers(G)` replaces the header map by the object-spread merge of
the current map `H` with `G`: every key of `G` takes `G`'s value (including
overriding Content-Type) and every key of `H` not present in `G` keeps its
value from `H`; the endpoint, query parameters and body are untouched. -/
theorem headers_merges_with_override (st : ApiBuilder) (g : HeaderMap)
    (hg : (g.map Prod.fst).Nodup) :
    (ApiBuilder.headers g st).endpoint = st.endpoint ∧
    (ApiBuilder.headers g st).requestParams = st.requestParams ∧
    (ApiBuilder.headers g st).requestBody = st.requestBody ∧
    ∀ k, ((ApiBuilder.headers g st).requestHeaders.getD []).lookup k =
      (g.lookup k).or ((st.requestHeaders.getD []).lookup k) :=
  ⟨rfl, rfl, rfl, fun k => lookup_objSpread g (st.requestHeaders.getD []) k hg⟩

/-- C5 witness: at a fresh builder, a caller map overriding Content-Type and
adding a custom header yields the caller's Content-Type value, keeps the
default Authorization value, and keeps the other builder fields. -/
theorem headers_merges_with_override_witness :
    (([("Content-Type", "text/plain"), ("X-Custom", "1")] : HeaderMap).map
      Prod.fst).Nodup ∧
    ((ApiBuilder.headers [("Content-Type", "text/plain"), ("X-Custom", "1")]
        (ApiBuilder.create "tok")).requestHeaders.getD []).lookup "Content-Type" =
      some "text/plain" ∧
    ((ApiBuilder.headers [("Content-Type", "text/plain"), ("X-Custom", "1")]
        (ApiBuilder.create "tok")).requestHeaders.getD []).lookup "X-Custom" =
      some "1" ∧
    ((ApiBuilder.headers [("Content-Type", "text/plain"), ("X-Custom", "1")]
        (ApiBuilder.create "tok")).requestHeaders.getD []).lookup "Authorization" =
      some "Bearer tok" ∧
    (ApiBuilder.headers [("Content-Type", "text/plain"), ("X-Custom", "1")]
        (ApiBuilder.create "tok")).endpoint = "" := by
  have h := headers_merges_with_override (ApiBuilder.create "tok")
    [("Content-Type", "text/plain"), ("X-Custom", "1")] (by decide)
  exact ⟨by decide, h.2.2.2 "Content-Type", h.2.2.2 "X-Custom",
    h.2.2.2 "Authorization", h.1⟩

theorem lookup_eraseKey (key k : String) (m : HeaderMap) :
    (eraseKey key m).lookup k = if k = key then none else m.lookup k := by
  induction m with
  | nil => by_cases h : k = key <;> simp [eraseKey, List.lookup, h]
  | cons p rest ih =>
    obtain ⟨k0, v0⟩ := p
    by_cases h0 : k0 = key
    · subst h0
      have he : eraseKey k0 ((k0, v0) :: rest) = eraseKey k0 rest := by
        simp [eraseKey, List.filter_cons]
      rw [he, ih]
      by_cases h : k = k0 <;> simp [h, lookup_cons_ite]
    · have he : eraseKey key ((k0, v0) :: rest) = (k0, v0) :: eraseKey key rest := by
        simp [eraseKey, List.filter_cons, bne_iff_ne, h0]
      rw [he, lookup_cons_ite]
      by_cases h : k = k0
      · subst h
        simp [h0, lookup_cons_ite]
      · simp [h, ih, lookup_cons_ite]

/-- C6: both versions of `withoutAuth()` remove exactly the Authorization
entry from the current header map — afterwards the map has no Authorization
key, every other header key keeps its value, and the path, query-parameter
map and body are unchanged. -/
theorem withoutAuth_removes_only_authorization (st : ApiBuilder) :
    (ApiBuilder.withoutAuth st).endpoint = st.endpoint ∧
    (ApiBuilder.withoutAuth st).requestParams = st.requestParams ∧
    (ApiBuilder.withoutAuth st).requestBody = st.requestBody ∧
    ((ApiBuilder.withoutAuth st).requestHeaders.getD []).lookup "Authorization" =
      none ∧
    (∀ k, k ≠ "Authorization" →
      ((ApiBuilder.withoutAuth st).requestHeaders.getD []).lookup k =
        (st.requestHeaders.getD []).lookup k) ∧
    (ApiBuilder.withoutAuthV2 st).endpoint = st.endpoint ∧
    (ApiBuilder.withoutAuthV2 st).requestParams = st.requestParams ∧
    (ApiBuilder.withoutAuthV2 st).requestBody = st.requestBody ∧
    ((ApiBuilder.withoutAuthV2 st).requestHeaders.getD []).lookup "Authorization" =
      none ∧
    (∀ k, k ≠ "Authorization" →
      ((ApiBuilder.withoutAuthV2 st).requestHeaders.getD []).lookup k =
        (st.requestHeaders.getD []).lookup k) := by
  refine ⟨rfl, rfl, rfl, ?_, ?_, ?_, ?_, ?_, ?_, ?_⟩
  · simp [ApiBuilder.withoutAuth, lookup_eraseKey]
  · intro k hk
    simp [ApiBuilder.withoutAuth, lookup_eraseKey, hk]
  all_goals cases h : st.requestHeaders
  · simp [ApiBuilder.withoutAuthV2, h]
  · simp [ApiBuilder.withoutAuthV2, h]
  · simp [ApiBuilder.withoutAuthV2, h]
  · simp [ApiBuilder.withoutAuthV2, h]
  · simp [ApiBuilder.withoutAuthV2, h]
  · simp [ApiBuilder.withoutAuthV2, h]
  · simp [ApiBuilder.withoutAuthV2, h, List.lookup]
  · simp [ApiBuilder.withoutAuthV2, h, lookup_eraseKey]
  · intro k hk
    simp [ApiBuilder.withoutAuthV2, h, List.lookup]
  · intro k hk
    simp [ApiBuilder.withoutAuthV2, h, lookup_eraseKey, hk]

/-- C6 witness: on a builder holding a custom header next to Authorization,
either `withoutAuth` version empties the Authorization entry and preserves
the custom header. -/
theorem withoutAuth_removes_only_authorization_witness :
    ("X-Custom" : String) ≠ "Authorization" ∧
    ((ApiBuilder.withoutAuth
        { requestHeaders := some [("Authorization", "Bearer t"), ("X-Custom", "1")] }
      ).requestHeaders.getD []).lookup "Authorization" = none ∧
    ((ApiBuilder.withoutAuth
        { requestHeaders := some [("Authorization", "Bearer t"), ("X-Custom", "1")] }
      ).requestHeaders.getD []).lookup "X-Custom" = some "1" ∧
    ((ApiBuilder.withoutAuthV2
        { requestHeaders := some [("Authorization", "Bearer t"), ("X-Custom", "1")] }
      ).requestHeaders.getD []).lookup "X-Custom" = some "1" := by
  have h := withoutAuth_removes_only_authorization
    { requestHeaders := some [("Authorization", "Bearer t"), ("X-Custom", "1")] }
  exact ⟨by decide, h.2.2.2.1, h.2.2.2.2.1 "X-Custom" (by decide),
    h.2.2.2.2.2.2.2.2.2 "X-Custom" (by decide)⟩

/-- C8: `shouldEqual(a, b)` passes exactly when `a` and `b` are strictly
equal or their deep structural (order-sensitive) serializations coincide
textually; structurally equal object literals pass, differing ones fail, and
the same fields in a different order fail (order sensitivity). -/
theorem shouldEqual_characterization :
    (∀ a b : JSValue, shouldEqual a b = true ↔
      (jsStrictEq a b = true ∨ jsStringify a = jsStringify b)) ∧
    shouldEqual (.obj [("a", .num 1), ("b", .num 2)])
      (.obj [("a", .num 1), ("b", .num 2)]) = true ∧
    shouldEqual (.obj [("a", .num 1)]) (.obj [("a", .num 2)]) = false ∧
    shouldEqual (.obj [("a", .num 1), ("b", .num 2)])
      (.obj [("b", .num 2), ("a", .num 1)]) = false := by
  refine ⟨fun a b => ?_, by decide, by decide, by decide⟩
  simp [shouldEqual]

/-- C7 counterexample: the two `shouldContain` versions disagree on a
string receiver with a non-string expected value (`"123"` contains the
number `2` in `customMatchers.ts` but not in part_005), so no single
pass/fail verdict covers both; and the object branch compares against the
string coercion of the expected value, not against its serialized form —
`\x7ba:1\x7d` contains `":1"` by coercion although the serialization of
`":1"` (a quoted string) is not a substring of the serialization of the
object. -/
theorem shouldContain_claim_counterexample :
    shouldContain (.str "123") (.num 2) = true ∧
    shouldContainV2 (.str "123") (.num 2) = false ∧
    shouldContain (.obj [("a", .num 1)]) (.str ":1") = true ∧
    strIncludes (jsStringify (.obj [("a", .num 1)])) (jsStringify (.str ":1")) =
      false := by
  decide

/-- C7 (amended): full characterization of both `shouldContain` versions —
strings pass iff the string coercion of the expected value is a substring
(the part_005 version additionally requires the expected value to be a
string); arrays pass (identically in both versions) iff some element equals
the expected value by identity or by structural-serialization equality;
objects pass iff the serialization of the receiver contains the string
coercion of the expected value; `null` receivers take the object branch in
`customMatchers.ts` and always fail in part_005; numbers and booleans always
fail; the three documented examples hold in both versions. -/
theorem shouldContain_characterization :
    (∀ (s : String) (e : JSValue),
      shouldContain (.str s) e = true ↔ (jsToString e).toList <:+: s.toList) ∧
    (∀ (s : String) (e : JSValue),
      shouldContainV2 (.str s) e = true ↔
        ∃ es : String, e = .str es ∧ es.toList <:+: s.toList) ∧
    (∀ (items : List JSValue) (e : JSValue),
      shouldContain (.arr items) e = shouldContainV2 (.arr items) e ∧
      (shouldContain (.arr items) e = true ↔
        ∃ item ∈ items,
          jsStrictEq item e = true ∨ jsStringify item = jsStringify e)) ∧
    (∀ (fields : List (String × JSValue)) (e : JSValue),
      shouldContain (.obj fields) e = shouldContainV2 (.obj fields) e ∧
      (shouldContain (.obj fields) e = true ↔
        (jsToString e).toList <:+: (jsStringify (.obj fields)).toList)) ∧
    (∀ e : JSValue,
      (shouldContain .null e = true ↔
        (jsToString e).toList <:+: (jsStringify .null).toList) ∧
      shouldContainV2 .null e = false) ∧
    (∀ (n : Int) (e : JSValue),
      shouldContain (.num n) e = false ∧ shouldContainV2 (.num n) e = false) ∧
    (∀ (b : Bool) (e : JSValue),
      shouldContain (.bool b) e = false ∧ shouldContainV2 (.bool b) e = false) ∧
    shouldContain (.arr [.num 1, .num 2, .num 3]) (.num 2) = true ∧
    shouldContainV2 (.arr [.num 1, .num 2, .num 3]) (.num 2) = true ∧
    shouldContain (.str "hello world") (.str "world") = true ∧
    shouldContainV2 (.str "hello world") (.str "world") = true ∧
    shouldContain (.arr [.num 1, .num 2, .num 3]) (.num 9) = false ∧
    shouldContainV2 (.arr [.num 1, .num 2, .num 3]) (.num 9) = false := by
  refine ⟨fun s e => ?_, fun s e => ?_, fun items e => ⟨?_, ?_⟩,
    fun fields e => ⟨rfl, ?_⟩, fun e => ⟨?_, rfl⟩, fun n e => ⟨rfl, rfl⟩,
    fun b e => ⟨rfl, rfl⟩,
    by decide, by decide, by decide, by decide, by decide, by decide⟩
  · simp [shouldContain, strIncludes]
  · cases e <;> simp [shouldContainV2, strIncludes]
  · rfl
  · simp only [shouldContain, Bool.or_eq_true, List.any_eq_true, beq_iff_eq]
    constructor
    · rintro (⟨item, hm, hp⟩ | ⟨item, hm, hp⟩)
      · exact ⟨item, hm, Or.inl hp⟩
      · exact ⟨item, hm, Or.inr hp⟩
    · rintro ⟨item, hm, hp | hp⟩
      · exact Or.inl ⟨item, hm, hp⟩
      · exact Or.inr ⟨item, hm, hp⟩
  · simp [shouldContain, strIncludes]
  · simp [shouldContain, strIncludes]

theorem plusThen_iff (k : List Char → Bool) (cs : List Char) :
    plusThen k cs = true ↔
      ∃ a b, cs = a ++ b ∧ a ≠ [] ∧ (∀ c ∈ a, isEmailChar c = true) ∧ k b = true := by
  induction cs with
  | nil =>
    constructor
    · intro h
      exact absurd h (by simp [plusThen])
    · rintro ⟨a, b, habs, hne, -, -⟩
      exact absurd (List.append_eq_nil.mp habs.symm).1 hne
  | cons c rest ih =>
    simp only [plusThen, Bool.and_eq_true, Bool.or_eq_true]
    constructor
    · rintro ⟨hc, hk | hp⟩
      · exact ⟨[c], rest, rfl, by simp, by simpa using hc, hk⟩
      · obtain ⟨a, b, heq, hne, hall, hkb⟩ := ih.mp hp
        exact ⟨c :: a, b, by rw [heq]; rfl, by simp,
          by
            intro x hx
            rcases List.mem_cons.mp hx with h | h
            · exact h ▸ hc
            · exact hall x h,
          hkb⟩
    · rintro ⟨a, b, heq, hne, hall, hkb⟩
      cases a with
      | nil => exact absurd rfl hne
      | cons a0 atl =>
        injection heq with h1 h2
        subst h1
        refine ⟨hall c (List.mem_cons_self c atl), ?_⟩
        cases atl with
        | nil =>
          left
          simpa [h2] using hkb
        | cons a1 atl' =>
          right
          exact ih.mpr ⟨a1 :: atl', b, h2, by simp,
            fun x hx => hall x (List.mem_cons_of_mem c hx), hkb⟩

theorem emailAtK_eq_true (r1 : List Char) :
    emailAtK r1 = true ↔ ∃ r2, r1 = '@' :: r2 ∧ plusThen emailDotK r2 = true := by
  cases r1 with
  | nil => simp [emailAtK]
  | cons c r2 =>
    simp only [emailAtK, Bool.and_eq_true, beq_iff_eq]
    constructor
    · rintro ⟨rfl, h⟩
      exact ⟨r2, rfl, h⟩
    · rintro ⟨r2', heq, h⟩
      injection heq with h1 h2
      subst h1
      subst h2
      exact ⟨rfl, h⟩

theorem emailDotK_eq_true (r3 : List Char) :
    emailDotK r3 = true ↔
      ∃ r4, r3 = '.' :: r4 ∧ plusThen (fun r5 => r5.isEmpty) r4 = true := by
  cases r3 with
  | nil => simp [emailDotK]
  | cons c r4 =>
    simp only [emailDotK, Bool.and_eq_true, beq_iff_eq]
    constructor
    · rintro ⟨rfl, h⟩
      exact ⟨r4, rfl, h⟩
    · rintro ⟨r4', heq, h⟩
      injection heq with h1 h2
      subst h1
      subst h2
      exact ⟨rfl, h⟩

theorem emailRegexTest_iff (s : String) :
    emailRegexTest s = true ↔
      ∃ l x y : List Char,
        s.toList = l ++ '@' :: (x ++ '.' :: y) ∧
        l ≠ [] ∧ x ≠ [] ∧ y ≠ [] ∧
        (∀ c ∈ l, isEmailChar c = true) ∧
        (∀ c ∈ x, isEmailChar c = true) ∧
        (∀ c ∈ y, isEmailChar c = true) := by
  unfold emailRegexTest
  rw [plusThen_iff]
  constructor
  · rintro ⟨l, b, hs, hl, hall, hk⟩
    rw [emailAtK_eq_true] at hk
    obtain ⟨r2, rfl, hk⟩ := hk
    rw [plusThen_iff] at hk
    obtain ⟨x, b3, rfl, hx, hallx, hk3⟩ := hk
    rw [emailDotK_eq_true] at hk3
    obtain ⟨r4, rfl, hk4⟩ := hk3
    rw [plusThen_iff] at hk4
    obtain ⟨y, b5, rfl, hy, hally, hk5⟩ := hk4
    have hb5 : b5 = [] := by
      cases b5
      · rfl
      · simp [List.isEmpty] at hk5
    subst hb5
    refine ⟨l, x, y, ?_, hl, hx, hy, hall, hallx, hally⟩
    rw [hs]
    simp
  · rintro ⟨l, x, y, hs, hl, hx, hy, hall, hallx, hally⟩
    refine ⟨l, '@' :: (x ++ '.' :: y), hs, hl, hall, ?_⟩
    rw [emailAtK_eq_true]
    refine ⟨x ++ '.' :: y, rfl, ?_⟩
    rw [plusThen_iff]
    refine ⟨x, '.' :: y, rfl, hx, hallx, ?_⟩
    rw [emailDotK_eq_true]
    refine ⟨y, rfl, ?_⟩
    rw [plusThen_iff]
    exact ⟨y, [], by simp, hy, hally, rfl⟩

/-- C9: `shouldBeValidEmail(v)` passes exactly when `v` is a string matching
the permissive email regex — a nonempty local part and a domain separated by
a single `@`, the domain containing an interior dot, all characters free of
ECMAScript whitespace and further `@`s; `"a@b.com"` passes while
`"not-an-email"`, `"a@@b.com"`, strings holding a vertical tab, form feed or
no-break space, and non-string values fail. -/
theorem shouldBeValidEmail_characterization :
    (∀ v : JSValue, shouldBeValidEmail v = true ↔
      ∃ (s : String) (l x y : List Char),
        v = .str s ∧
        s.toList = l ++ '@' :: (x ++ '.' :: y) ∧
        l ≠ [] ∧ x ≠ [] ∧ y ≠ [] ∧
        (∀ c ∈ l, isEmailChar c = true) ∧
        (∀ c ∈ x, isEmailChar c = true) ∧
        (∀ c ∈ y, isEmailChar c = true)) ∧
    shouldBeValidEmail (.str "a@b.com") = true ∧
    shouldBeValidEmail (.str "not-an-email") = false ∧
    shouldBeValidEmail (.str "a@@b.com") = false ∧
    shouldBeValidEmail (.str "a\x0Bb@c.d") = false ∧
    shouldBeValidEmail (.str "a\x0Cb@c.d") = false ∧
    shouldBeValidEmail (.str "a\u00A0b@c.d") = false ∧
    shouldBeValidEmail (.str "a b@c.d") = false ∧
    shouldBeValidEmail (.num 5) = false ∧
    shouldBeValidEmail .null = false := by
  refine ⟨fun v => ?_, by decide, by decide, by decide, by decide, by decide,
    by decide, by decide, by decide, by decide⟩
  cases v with
  | str s =>
    simp only [shouldBeValidEmail, emailRegexTest_iff, JSValue.str.injEq]
    constructor
    · rintro ⟨l, x, y, h⟩
      exact ⟨s, l, x, y, rfl, h⟩
    · rintro ⟨s', l, x, y, rfl, h⟩
      exact ⟨l, x, y, h⟩
  | null => simp [shouldBeValidEmail]
  | bool b => simp [shouldBeValidEmail]
  | num n => simp [shouldBeValidEmail]
  | arr items => simp [shouldBeValidEmail]
  | obj fields => simp [shouldBeValidEmail]
